import Mathlib

/-!
A shallow embedding in Lean 4 of the b2py client library
(files b2py/b2.py, b2py/utils.py, b2py/constants.py).

The client is a wrapper around an object-storage HTTP API.  We embed:

* Python dicts with string keys as insertion-ordered association lists
  (Dict), with assignment (dictInsert) and lookup (dictGet?);
* the remote side as a function from requests to responses (Env.remote),
  together with an abstract SHA-1 digest function (Env.sha1);
* the client object state (St): the two upload-target caches, the session
  fields set by authorization, and the shared default value of the
  headers parameter of the method B2._call (Python evaluates a default
  argument once, at definition time, so calls that omit the argument all
  share one mutable dict — we carry that dict in the state);
* each method as a function from a state to the list of HTTP requests it
  issues together with either a raised exception or a result and an
  updated state (Res).

Raised exceptions are modelled structurally: the source raises B2Error
with a formatted message; each distinct raise site becomes a constructor
carrying the values interpolated into the message.
-/

namespace B2py

/-- Byte strings (Python str/bytes payloads) as lists of naturals. -/
abbrev Bytes := List Nat

/-- A Python dict with string keys, as an insertion-ordered association list. -/
abbrev Dict (α : Type) := List (String × α)

/-- Python dict assignment d[k] = v: overwrite in place if the key is
present, otherwise append at the end. -/
def dictInsert : Dict α → String → α → Dict α
  | [], k, v => [(k, v)]
  | (k', v') :: rest, k, v =>
    if k' = k then (k, v) :: rest else (k', v') :: dictInsert rest k v

/-- Python dict lookup (d[k] / k in d). -/
def dictGet? : Dict α → String → Option α
  | [], _ => none
  | (k', v') :: rest, k => if k' = k then some v' else dictGet? rest k

/-- The JSON fields of B2 API responses that the client reads
(response.json() projections used in b2.py). -/
structure RespJson where
  authorizationToken : String
  apiUrl : String
  downloadUrl : String
  absoluteMinimumPartSize : Nat
  uploadUrl : String
  fileId : String
  contentSha1 : String
  files : List String
deriving DecidableEq

/-- An HTTP response: status code plus parsed JSON body. -/
structure Response where
  status_code : Nat
  json : RespJson
deriving DecidableEq

/-- The data= payload of a request: either raw content bytes, or the
json.dumps of the finish-large-file body (fileId and partSha1Array). -/
inductive ReqData where
  | content (b : Bytes)
  | jsonFinish (fileId : String) (partSha1Array : List String)
deriving DecidableEq

/-- One HTTP request as issued by B2._call: the host and endpoint (the url
is their concatenation), the headers, the params body and the raw data. -/
structure Request where
  host : String
  endpoint : String
  headers : Dict String
  params : Dict String
  data : Option ReqData
deriving DecidableEq

/-- The external collaborators: the SHA-1 digest function and the remote
side, a function from requests to responses. -/
structure Env where
  sha1 : Bytes → String
  remote : Request → Response

/-- Raised B2Error exceptions, one constructor per raise site, carrying the
values the source interpolates into the message (plus keyError for a
Python KeyError on a dict lookup). -/
inductive B2Error where
  | unauthenticated (endpoint : String)
  | apiError (status : Nat) (url : String) (body : RespJson)
  | tooSmall
  | keyError (key : String)
  | authFailed
deriving DecidableEq

/-- The state of a B2 client object: the two upload-target caches, the
session fields set by _authorize, and the shared default dict of the
headers parameter of _call. -/
structure St where
  upload_urls : Dict (String × String)
  file_upload_urls : Dict (String × String)
  auth_token : Option String
  api_url : String
  download_url : String
  file_part_size : Nat
  defaultHeaders : Dict String
deriving DecidableEq

def B2_API_HOST : String := "https://api.backblazeb2.com"

def B2_API_VERSION : String := "/b2api/v2"

def B2_API_BASE : String := B2_API_HOST ++ B2_API_VERSION

/-- utils.construct_url: plain concatenation of base and endpoint. -/
def construct_url (base endpoint : String) : String := base ++ endpoint

/-- Python (x or default) for an optional string: None and the empty
string are falsy. -/
def orDefault (s : Option String) (d : String) : String :=
  match s with
  | none => d
  | some v => if v = "" then d else v

/-- The authorized property: bool(self.auth_token) — true exactly when the
token is present and non-empty. -/
def authorized (st : St) : Bool := !(st.auth_token.getD "" == "")

/-- The outcome of running a client method: the HTTP requests issued (in
order), and either a raised exception or a result with the new state. -/
abbrev Res (α : Type) := List Request × Except B2Error (α × St)

/-- Sequencing of effects: run r, and on success feed its result and state
to f; requests accumulate in order, an exception aborts. -/
def Res.bind (r : Res α) (f : α → St → Res β) : Res β :=
  match r with
  | (evs, Except.error e) => (evs, Except.error e)
  | (evs, Except.ok (a, st)) =>
    let r2 := f a st
    (evs ++ r2.1, r2.2)

/-- B2._call.  headers = none models omitting the headers argument, in
which case the shared default dict from the state is used (and, on an
authenticated call, mutated in place — the mutation persists in the
state).  Raises unauthenticated before issuing any request when
requires_auth holds without a token; raises apiError on status >= 400. -/
def _call (env : Env) (st : St) (host : String) (endpoint : String)
    (headers : Option (Dict String)) (body : Dict String)
    (requires_auth : Bool) (data : Option ReqData) : Res Response :=
  if requires_auth && !(authorized st) then
    ([], Except.error (B2Error.unauthenticated endpoint))
  else
    let hdrs0 := headers.getD st.defaultHeaders
    let hdrs :=
      if requires_auth then dictInsert hdrs0 "Authorization" (st.auth_token.getD "")
      else hdrs0
    let st1 :=
      if requires_auth && headers.isNone then { st with defaultHeaders := hdrs }
      else st
    let req : Request := ⟨host, endpoint, hdrs, body, data⟩
    let resp := env.remote req
    if 400 ≤ resp.status_code then
      ([req], Except.error
        (B2Error.apiError resp.status_code (construct_url host endpoint) resp.json))
    else
      ([req], Except.ok (resp, st1))

/-- B2._authorize: one unauthenticated call to the fixed endpoint, then
populate the session fields from the response. -/
def _authorize (env : Env) (st : St) : Res Unit :=
  Res.bind (_call env st B2_API_BASE "/b2_authorize_account" none [] false none)
    fun resp st1 =>
      let st2 : St :=
        { st1 with
          auth_token := some resp.json.authorizationToken
          api_url := resp.json.apiUrl ++ B2_API_VERSION
          download_url := resp.json.downloadUrl
          file_part_size := resp.json.absoluteMinimumPartSize }
      if authorized st2 then ([], Except.ok ((), st2))
      else ([], Except.error B2Error.authFailed)

/-- B2._get_upload_url: fetch an upload target for a bucket and store it in
the upload_urls cache. -/
def _get_upload_url (env : Env) (st : St) (bucket_id : String) : Res Unit :=
  Res.bind
    (_call env st st.api_url "/b2_get_upload_url" none [("bucketId", bucket_id)] true none)
    fun resp st1 =>
      ([], Except.ok ((),
        { st1 with
          upload_urls := dictInsert st1.upload_urls bucket_id
            (resp.json.uploadUrl, resp.json.authorizationToken) }))

/-- B2._get_file_part_upload_url: fetch a part-upload target for a large
file and store it in the file_upload_urls cache. -/
def _get_file_part_upload_url (env : Env) (st : St) (file_id : String) : Res Unit :=
  Res.bind
    (_call env st st.api_url "/b2_get_upload_part_url" none [("fileId", file_id)] true none)
    fun resp st1 =>
      ([], Except.ok ((),
        { st1 with
          file_upload_urls := dictInsert st1.file_upload_urls file_id
            (resp.json.uploadUrl, resp.json.authorizationToken) }))

/-- B2._start_large_file_upload: request a large-file handle, returning the
fileId from the response. -/
def _start_large_file_upload (env : Env) (st : St) (bucket_id file_name : String)
    (content_type : Option String) : Res String :=
  let body : Dict String :=
    [("bucketId", bucket_id), ("fileName", file_name),
     ("contentType", orDefault content_type "b2/x-auto")]
  Res.bind (_call env st st.api_url "/b2_start_large_file" none body true none)
    fun resp st1 => ([], Except.ok (resp.json.fileId, st1))

/-- B2._upload_large_file_part: ensure the part-upload target for this file
is cached (fetching it on first use), then POST the part bytes to the
cached url with the part number, length and local SHA-1 headers, using the
target-specific token rather than the session token. -/
def _upload_large_file_part (env : Env) (st : St) (file_id : String)
    (part_idx : Nat) (contents : Bytes) : Res RespJson :=
  Res.bind
    (if (dictGet? st.file_upload_urls file_id).isNone then
       _get_file_part_upload_url env st file_id
     else ([], Except.ok ((), st)))
    fun _ st1 =>
      match dictGet? st1.file_upload_urls file_id with
      | none => ([], Except.error (B2Error.keyError file_id))
      | some (upload_url, auth_tok) =>
        let headers : Dict String :=
          [("Authorization", auth_tok),
           ("X-Bz-Part-Number", toString part_idx),
           ("Content-Length", toString contents.length),
           ("X-Bz-Content-Sha1", env.sha1 contents)]
        Res.bind
          (_call env st1 upload_url "" (some headers) [] false
            (some (ReqData.content contents)))
          fun resp st2 => ([], Except.ok (resp.json, st2))

/-- B2._finish_large_file_upload: POST the json body of fileId and the
ordered part hash list to the finish endpoint. -/
def _finish_large_file_upload (env : Env) (st : St) (file_id : String)
    (hashes : List String) : Res RespJson :=
  Res.bind
    (_call env st st.api_url "/b2_finish_large_file" none [] true
      (some (ReqData.jsonFinish file_id hashes)))
    fun resp st1 => ([], Except.ok (resp.json, st1))

/-- The part-count formula of _upload_large_file:
num_parts = int(len(contents) / file_part_size) + 1. -/
def numParts (len part_size : Nat) : Nat := len / part_size + 1

/-- The part list of _upload_large_file:
parts = [contents[i*size:(i+1)*size] for i in range(num_parts)]. -/
def splitParts (contents : Bytes) (part_size : Nat) : List Bytes :=
  (List.range (numParts contents.length part_size)).map fun i =>
    (contents.drop (i * part_size)).take part_size

/-- The hashes list comprehension of _upload_large_file: upload each part
sequentially with 1-based part numbers and collect the contentSha1 field
of each response. -/
def uploadParts (env : Env) (file_id : String) : Nat → List Bytes → St → Res (List String)
  | _, [], st => ([], Except.ok ([], st))
  | idx, p :: rest, st =>
    Res.bind (_upload_large_file_part env st file_id idx p) fun respJson st1 =>
      Res.bind (uploadParts env file_id (idx + 1) rest st1) fun hs st2 =>
        ([], Except.ok (respJson.contentSha1 :: hs, st2))

/-- B2._upload_large_file: start the large file, check the part-count
invariant, split, upload the parts sequentially, finish. -/
def _upload_large_file (env : Env) (st : St) (bucket_id file_name : String)
    (contents : Bytes) (content_type : Option String) : Res RespJson :=
  Res.bind (_start_large_file_upload env st bucket_id file_name content_type)
    fun file_id st1 =>
      if numParts contents.length st1.file_part_size < 2 then
        ([], Except.error B2Error.tooSmall)
      else
        Res.bind
          (uploadParts env file_id 1 (splitParts contents st1.file_part_size) st1)
          fun hashes st2 => _finish_large_file_upload env st2 file_id hashes

/-- The simple-upload branch of B2.upload_file (the code below the
large-file dispatch): ensure the bucket upload target is cached, then POST
the whole payload to it with the file name, content type, length and
SHA-1 headers, using the target-specific token. -/
def _upload_simple (env : Env) (st : St) (bucket_id file_name : String)
    (contents : Bytes) (content_type : Option String) : Res RespJson :=
  Res.bind
    (if (dictGet? st.upload_urls bucket_id).isNone then
       _get_upload_url env st bucket_id
     else ([], Except.ok ((), st)))
    fun _ st1 =>
      match dictGet? st1.upload_urls bucket_id with
      | none => ([], Except.error (B2Error.keyError bucket_id))
      | some (upload_url, auth_tok) =>
        let headers : Dict String :=
          [("Authorization", auth_tok),
           ("X-Bz-File-Name", file_name),
           ("Content-Type", orDefault content_type "b2/x-auto"),
           ("Content-Length", toString contents.length),
           ("X-Bz-Content-Sha1", env.sha1 contents)]
        Res.bind
          (_call env st1 upload_url "" (some headers) [] false
            (some (ReqData.content contents)))
          fun resp st2 => ([], Except.ok (resp.json, st2))

/-- B2.upload_file: dispatch on len(contents) > self.file_part_size
between the large and the simple path. -/
def upload_file (env : Env) (st : St) (bucket_id file_name : String)
    (contents : Bytes) (content_type : Option String) : Res RespJson :=
  if st.file_part_size < contents.length then
    _upload_large_file env st bucket_id file_name contents content_type
  else
    _upload_simple env st bucket_id file_name contents content_type

/-- B2.list_files: the optional fields are added to the body only when the
arguments are truthy (None, the empty string and 0 are all falsy). -/
def list_files (env : Env) (st : St) (bucket_id : String)
    (start_file_id : Option String) (limit : Option Nat) : Res (List String) :=
  let body : Dict String := [("bucketId", bucket_id)]
  let body :=
    if !(start_file_id.getD "" == "") then
      dictInsert body "startFileId" (start_file_id.getD "")
    else body
  let body :=
    if !(limit.getD 0 == 0) then
      dictInsert body "maxFileCount" (toString (limit.getD 0))
    else body
  Res.bind (_call env st st.api_url "/b2_list_file_versions" none body true none)
    fun resp st1 => ([], Except.ok (resp.json.files, st1))

/-- A request whose data payload is raw content bytes (within a large
upload trace these are exactly the part uploads). -/
def isContentUpload (q : Request) : Bool :=
  match q.data with
  | some (ReqData.content _) => true
  | _ => false

/-! ### Basic lemmas about dicts and sequencing -/

@[simp]
theorem dictGet?_insert_self (m : Dict α) (k : String) (v : α) :
    dictGet? (dictInsert m k v) k = some v := by
  induction m with
  | nil => simp [dictInsert, dictGet?]
  | cons hd rest ih =>
    obtain ⟨k', v'⟩ := hd
    by_cases h : k' = k
    · simp [dictInsert, dictGet?, h]
    · simp [dictInsert, dictGet?, h, ih]

theorem dictGet?_insert_ne (m : Dict α) (k k' : String) (v : α) (h : k' ≠ k) :
    dictGet? (dictInsert m k v) k' = dictGet? m k' := by
  induction m with
  | nil => simp [dictInsert, dictGet?, Ne.symm h]
  | cons hd rest ih =>
    obtain ⟨k0, v0⟩ := hd
    by_cases h0 : k0 = k
    · subst h0
      simp [dictInsert, dictGet?, Ne.symm h]
    · simp [dictInsert, dictGet?, h0, ih]

@[simp]
theorem Res.bind_ok (evs : List Request) (a : α) (st : St) (f : α → St → Res β) :
    Res.bind (evs, Except.ok (a, st)) f = (evs ++ (f a st).1, (f a st).2) := rfl

@[simp]
theorem Res.bind_error (evs : List Request) (e : B2Error) (f : α → St → Res β) :
    Res.bind (evs, Except.error e) f = (evs, Except.error e) := rfl

/-- Inversion for a successful sequenced computation. -/
theorem Res.bind_eq_ok (r : Res α) (f : α → St → Res β) (b : β) (st' : St)
    (h : (Res.bind r f).2 = Except.ok (b, st')) :
    ∃ a st1, r.2 = Except.ok (a, st1) ∧ (f a st1).2 = Except.ok (b, st') := by
  obtain ⟨evs, exc⟩ := r
  cases exc with
  | error e => simp [Res.bind] at h
  | ok p =>
    obtain ⟨a, st1⟩ := p
    exact ⟨a, st1, rfl, h⟩

/-- Every request in the trace of a sequenced computation comes either from
the first computation or, after its success, from the continuation. -/
theorem Res.mem_bind (r : Res α) (f : α → St → Res β) (q : Request)
    (h : q ∈ (Res.bind r f).1) :
    q ∈ r.1 ∨ ∃ a st1, r.2 = Except.ok (a, st1) ∧ q ∈ (f a st1).1 := by
  obtain ⟨evs, exc⟩ := r
  cases exc with
  | error e => exact Or.inl h
  | ok p =>
    obtain ⟨a, st1⟩ := p
    rcases List.mem_append.mp h with h1 | h2
    · exact Or.inl h1
    · exact Or.inr ⟨a, st1, rfl, h2⟩

/-! ### The part-splitting algebra (C1, C7) -/

/-- Concatenating the first n slices of width s recovers the first n*s
elements. -/
theorem flatten_slices (l : Bytes) (s : Nat) :
    ∀ n : Nat, ((List.range n).map fun i => ((l.drop (i * s)).take s)).flatten = l.take (n * s) := by
  intro n
  induction n with
  | zero => simp
  | succ m ih =>
    rw [List.range_succ, List.map_append, List.flatten_append, ih]
    simp only [List.map_cons, List.map_nil, List.flatten_cons, List.flatten_nil,
      List.append_nil]
    rw [Nat.succ_mul, List.take_add]

theorem splitParts_length (contents : Bytes) (s : Nat) :
    (splitParts contents s).length = numParts contents.length s := by
  simp [splitParts]

theorem splitParts_getD (contents : Bytes) (s i : Nat)
    (h : i < numParts contents.length s) :
    (splitParts contents s).getD i [] = (contents.drop (i * s)).take s := by
  simp [splitParts, List.getD_eq_getElem?_getD, List.getElem?_map, List.getElem?_range, h]

/-- C1: for a payload longer than the part size, _upload_large_file splits
it into exactly len/size + 1 contiguous slices: the list has numParts
entries, every slice before the last has exactly part_size bytes, the last
slice is strictly shorter and holds the remainder (empty exactly when the
length is an exact multiple), and concatenating the slices in order
reproduces the payload. -/
theorem splitParts_spec (contents : Bytes) (s : Nat) (hs : 0 < s)
    (hL : s < contents.length) :
    (splitParts contents s).length = contents.length / s + 1 ∧
    (∀ i, i < contents.length / s →
      ((splitParts contents s).getD i []).length = s) ∧
    ((splitParts contents s).getD (contents.length / s) []).length = contents.length % s ∧
    ((splitParts contents s).getD (contents.length / s) []).length < s ∧
    (((splitParts contents s).getD (contents.length / s) []) = [] ↔ s ∣ contents.length) ∧
    (splitParts contents s).flatten = contents := by
  have hmod := Nat.div_add_mod contents.length s
  have hcomm : contents.length / s * s = s * (contents.length / s) := Nat.mul_comm _ _
  have hmodlt : contents.length % s < s := Nat.mod_lt _ hs
  refine ⟨splitParts_length contents s, ?_, ?_, ?_, ?_, ?_⟩
  · intro i hi
    rw [splitParts_getD contents s i (by simp [numParts]; omega)]
    have hmul : (i + 1) * s ≤ contents.length / s * s :=
      Nat.mul_le_mul_right s hi
    have hexp : (i + 1) * s = i * s + s := by ring
    have hdiv : contents.length / s * s ≤ contents.length := Nat.div_mul_le_self _ _
    simp only [List.length_take, List.length_drop]
    omega
  · rw [splitParts_getD contents s _ (by simp [numParts])]
    simp only [List.length_take, List.length_drop]
    omega
  · rw [splitParts_getD contents s _ (by simp [numParts])]
    simp only [List.length_take, List.length_drop]
    omega
  · rw [splitParts_getD contents s _ (by simp [numParts])]
    rw [← List.length_eq_zero]
    simp only [List.length_take, List.length_drop]
    rw [Nat.dvd_iff_mod_eq_zero]
    omega
  · rw [splitParts, numParts, flatten_slices]
    apply List.take_of_length_le
    have hexp : (contents.length / s + 1) * s = contents.length / s * s + s := by ring
    omega

/-- Witness for splitParts_spec at part size 100 and a 250-byte payload. -/
theorem splitParts_spec_witness :
    (0 < 100 ∧ 100 < (List.replicate 250 0 : Bytes).length) ∧
    ((splitParts (List.replicate 250 0) 100).length = (List.replicate 250 0 : Bytes).length / 100 + 1 ∧
    (∀ i, i < (List.replicate 250 0 : Bytes).length / 100 →
      ((splitParts (List.replicate 250 0) 100).getD i []).length = 100) ∧
    ((splitParts (List.replicate 250 0) 100).getD ((List.replicate 250 0 : Bytes).length / 100) []).length =
      (List.replicate 250 0 : Bytes).length % 100 ∧
    ((splitParts (List.replicate 250 0) 100).getD ((List.replicate 250 0 : Bytes).length / 100) []).length < 100 ∧
    (((splitParts (List.replicate 250 0) 100).getD ((List.replicate 250 0 : Bytes).length / 100) []) = [] ↔
      100 ∣ (List.replicate 250 0 : Bytes).length) ∧
    (splitParts (List.replicate 250 0) 100).flatten = List.replicate 250 0) :=
  ⟨⟨by norm_num, by rw [List.length_replicate]; norm_num⟩,
   splitParts_spec (List.replicate 250 0) 100 (by norm_num)
     (by rw [List.length_replicate]; norm_num)⟩

/-! ### C10: falsy optional arguments of list_files are omitted -/

/-- The requests issued by one _call: none when the authorization
precondition fails, otherwise exactly one, carrying the given host,
endpoint, params and data, with the Authorization header added on an
authenticated call. -/
theorem call_trace (env : Env) (st : St) (host ep : String)
    (headers : Option (Dict String)) (body : Dict String) (ra : Bool)
    (data : Option ReqData) :
    (_call env st host ep headers body ra data).1 =
      if ra && !(authorized st) then []
      else [⟨host, ep,
        (if ra then
          dictInsert (headers.getD st.defaultHeaders) "Authorization" (st.auth_token.getD "")
         else headers.getD st.defaultHeaders),
        body, data⟩] := by
  unfold _call
  split
  · simp_all
  · dsimp only
    repeat' split
    all_goals simp_all

/-- Every request issued by _call carries the given params body. -/
theorem mem_call_params (env : Env) (st : St) (host ep : String)
    (headers : Option (Dict String)) (body : Dict String) (ra : Bool)
    (data : Option ReqData) (q : Request)
    (h : q ∈ (_call env st host ep headers body ra data).1) : q.params = body := by
  rw [call_trace] at h
  split at h
  · simp at h
  · simp at h
    subst h
    rfl

/-! ### Closed forms for _call -/

/-- The request issued by an authenticated call that omits the headers
argument: the shared default dict with the Authorization entry set. -/
def authReq (st : St) (host ep : String) (body : Dict String)
    (data : Option ReqData) (tok : String) : Request :=
  ⟨host, ep, dictInsert st.defaultHeaders "Authorization" tok, body, data⟩

/-- The state after an authenticated call that omits the headers argument:
the shared default headers dict now holds the Authorization entry. -/
def authBump (st : St) (tok : String) : St :=
  { st with defaultHeaders := dictInsert st.defaultHeaders "Authorization" tok }

@[simp]
theorem authBump_auth_token (st : St) (tok : String) :
    (authBump st tok).auth_token = st.auth_token := rfl

@[simp]
theorem authBump_api_url (st : St) (tok : String) :
    (authBump st tok).api_url = st.api_url := rfl

@[simp]
theorem authBump_file_part_size (st : St) (tok : String) :
    (authBump st tok).file_part_size = st.file_part_size := rfl

@[simp]
theorem authBump_upload_urls (st : St) (tok : String) :
    (authBump st tok).upload_urls = st.upload_urls := rfl

@[simp]
theorem authBump_file_upload_urls (st : St) (tok : String) :
    (authBump st tok).file_upload_urls = st.file_upload_urls := rfl

@[simp]
theorem authBump_defaultHeaders (st : St) (tok : String) :
    (authBump st tok).defaultHeaders = dictInsert st.defaultHeaders "Authorization" tok := rfl

theorem authorized_of_token (st : St) (tok : String) (htok : st.auth_token = some tok)
    (hne : tok ≠ "") : authorized st = true := by
  simp [authorized, htok, hne]

/-- The request a non-failing _call issues, as a function of its
arguments. -/
def callReq (st : St) (host ep : String) (headers : Option (Dict String))
    (body : Dict String) (ra : Bool) (data : Option ReqData) : Request :=
  ⟨host, ep,
    (if ra then
      dictInsert (headers.getD st.defaultHeaders) "Authorization" (st.auth_token.getD "")
     else headers.getD st.defaultHeaders),
    body, data⟩

/-- Full characterization of _call when the authorization guard passes. -/
theorem call_eq (env : Env) (st : St) (host ep : String)
    (headers : Option (Dict String)) (body : Dict String) (ra : Bool)
    (data : Option ReqData) (hguard : (ra && !(authorized st)) = false) :
    _call env st host ep headers body ra data =
      ([callReq st host ep headers body ra data],
       if 400 ≤ (env.remote (callReq st host ep headers body ra data)).status_code then
         Except.error (B2Error.apiError
           (env.remote (callReq st host ep headers body ra data)).status_code
           (construct_url host ep)
           (env.remote (callReq st host ep headers body ra data)).json)
       else Except.ok (env.remote (callReq st host ep headers body ra data),
         if ra && headers.isNone then
           { st with defaultHeaders := (callReq st host ep headers body ra data).headers }
         else st)) := by
  unfold _call callReq
  rw [hguard]
  simp only [Bool.false_eq_true, if_false]
  split_ifs <;> rfl

/-- Closed form of a successful authenticated call omitting the headers
argument. -/
theorem call_auth_ok (env : Env) (st : St) (host ep : String) (body : Dict String)
    (data : Option ReqData) (tok : String)
    (htok : st.auth_token = some tok) (hne : tok ≠ "")
    (hok : (env.remote (authReq st host ep body data tok)).status_code < 400) :
    _call env st host ep none body true data =
      ([authReq st host ep body data tok],
       Except.ok (env.remote (authReq st host ep body data tok), authBump st tok)) := by
  have hA := authorized_of_token st tok htok hne
  have hreq : callReq st host ep none body true data = authReq st host ep body data tok := by
    simp [callReq, authReq, htok]
  rw [call_eq env st host ep none body true data (by simp [hA]), hreq,
    if_neg (Nat.not_le.mpr hok)]
  simp [authBump, authReq]

/-- Closed form of a successful unauthenticated call with explicit
headers. -/
theorem call_noauth_ok (env : Env) (st : St) (host ep : String) (hdrs : Dict String)
    (body : Dict String) (data : Option ReqData)
    (hok : (env.remote ⟨host, ep, hdrs, body, data⟩).status_code < 400) :
    _call env st host ep (some hdrs) body false data =
      ([⟨host, ep, hdrs, body, data⟩],
       Except.ok (env.remote ⟨host, ep, hdrs, body, data⟩, st)) := by
  have hreq : callReq st host ep (some hdrs) body false data = ⟨host, ep, hdrs, body, data⟩ := by
    simp [callReq]
  rw [call_eq env st host ep (some hdrs) body false data (by simp), hreq,
    if_neg (Nat.not_le.mpr hok)]
  simp

/-- A successful _call leaves every state field except the shared default
headers dict unchanged. -/
theorem call_ok_state (env : Env) (st : St) (host ep : String)
    (headers : Option (Dict String)) (body : Dict String) (ra : Bool)
    (data : Option ReqData) (resp : Response) (st' : St)
    (h : (_call env st host ep headers body ra data).2 = Except.ok (resp, st')) :
    st'.auth_token = st.auth_token ∧ st'.api_url = st.api_url ∧
    st'.file_part_size = st.file_part_size ∧ st'.upload_urls = st.upload_urls ∧
    st'.file_upload_urls = st.file_upload_urls := by
  by_cases hguard : (ra && !(authorized st)) = true
  · simp [_call, hguard] at h
  · rw [call_eq env st host ep headers body ra data (by simpa using hguard)] at h
    dsimp only at h
    split at h
    · simp at h
    · simp only [Except.ok.injEq, Prod.mk.injEq] at h
      obtain ⟨h1, h2⟩ := h
      rw [← h2]
      split <;> exact ⟨rfl, rfl, rfl, rfl, rfl⟩

/-! ### C5 and C6: the Authenticated API Caller contract -/

/-- C5: whenever _call issues its request (the authorization precondition
holds when required), it issues exactly one; on response status >= 400 it
raises apiError carrying the status, the constructed url and the parsed
body, and otherwise it returns the raw response. -/
theorem call_status_contract (env : Env) (st : St) (host ep : String)
    (headers : Option (Dict String)) (body : Dict String) (ra : Bool)
    (data : Option ReqData) (hauth : ra = true → authorized st = true) :
    ∃ req, (_call env st host ep headers body ra data).1 = [req] ∧
      (400 ≤ (env.remote req).status_code →
        (_call env st host ep headers body ra data).2 =
          Except.error (B2Error.apiError (env.remote req).status_code
            (construct_url host ep) (env.remote req).json)) ∧
      ((env.remote req).status_code < 400 →
        ∃ st1, (_call env st host ep headers body ra data).2 =
          Except.ok (env.remote req, st1)) := by
  have hguard : (ra && !(authorized st)) = false := by
    cases ra with
    | false => rfl
    | true => simp [hauth rfl]
  rw [call_eq env st host ep headers body ra data hguard]
  refine ⟨callReq st host ep headers body ra data, rfl, ?_, ?_⟩
  · intro hge
    dsimp only
    rw [if_pos hge]
  · intro hlt
    dsimp only
    rw [if_neg (Nat.not_le.mpr hlt)]
    exact ⟨_, rfl⟩

/-- Witness for call_status_contract on a concrete environment. -/
def sampleJson : RespJson :=
  ⟨"TOKEN2", "https://api2.example", "https://dl.example", 100,
   "https://upload.example", "file1", "echo-sha", []⟩

def sampleEnv : Env := ⟨fun b => toString b.length, fun _ => ⟨200, sampleJson⟩⟩

def sampleSt : St :=
  ⟨[], [], some "TOKEN", "https://api.example/b2api/v2", "https://dl.example", 100, []⟩

theorem call_status_contract_witness :
    ((true : Bool) = true → authorized sampleSt = true) ∧
    (∃ req, (_call sampleEnv sampleSt "h" "/e" none [] true none).1 = [req] ∧
      (400 ≤ (sampleEnv.remote req).status_code →
        (_call sampleEnv sampleSt "h" "/e" none [] true none).2 =
          Except.error (B2Error.apiError (sampleEnv.remote req).status_code
            (construct_url "h" "/e") (sampleEnv.remote req).json)) ∧
      ((sampleEnv.remote req).status_code < 400 →
        ∃ st1, (_call sampleEnv sampleSt "h" "/e" none [] true none).2 =
          Except.ok (sampleEnv.remote req, st1))) :=
  ⟨fun _ => by decide,
   call_status_contract sampleEnv sampleSt "h" "/e" none [] true none (fun _ => by decide)⟩

/-- C6: an authenticated call without a non-empty session token raises
unauthenticated naming the endpoint, and issues no request at all. -/
theorem call_unauthenticated (env : Env) (st : St) (host ep : String)
    (headers : Option (Dict String)) (body : Dict String) (data : Option ReqData)
    (hauth : authorized st = false) :
    _call env st host ep headers body true data =
      ([], Except.error (B2Error.unauthenticated ep)) := by
  unfold _call
  rw [hauth]
  simp

/-- Witness for call_unauthenticated: a state with no token set. -/
theorem call_unauthenticated_witness :
    authorized ⟨[], [], none, "a", "d", 100, []⟩ = false ∧
    _call sampleEnv ⟨[], [], none, "a", "d", 100, []⟩ "h" "/e" none [] true none =
      ([], Except.error (B2Error.unauthenticated "/e")) :=
  ⟨by decide,
   call_unauthenticated sampleEnv ⟨[], [], none, "a", "d", 100, []⟩ "h" "/e" none [] none
     (by decide)⟩

/-! ### Closed forms for the large-upload pipeline -/

/-- The start-large-file request issued from a given state. -/
def startRequest (st : St) (b n : String) (ct : Option String) (tok : String) : Request :=
  authReq st st.api_url "/b2_start_large_file"
    [("bucketId", b), ("fileName", n), ("contentType", orDefault ct "b2/x-auto")] none tok

/-- The fileId handed back by the remote side for the start request. -/
def startFid (env : Env) (st : St) (b n : String) (ct : Option String) (tok : String) : String :=
  (env.remote (startRequest st b n ct tok)).json.fileId

theorem start_ok (env : Env) (st : St) (b n : String) (ct : Option String) (tok : String)
    (htok : st.auth_token = some tok) (hne : tok ≠ "")
    (hok : ∀ q, (env.remote q).status_code < 400) :
    _start_large_file_upload env st b n ct =
      ([startRequest st b n ct tok],
       Except.ok (startFid env st b n ct tok, authBump st tok)) := by
  unfold _start_large_file_upload
  dsimp only
  rw [call_auth_ok env st st.api_url "/b2_start_large_file"
    [("bucketId", b), ("fileName", n), ("contentType", orDefault ct "b2/x-auto")]
    none tok htok hne (hok _)]
  simp [startRequest, startFid]

/-- The get-upload-part-url request issued from a given state. -/
def partUrlRequest (st : St) (fid tok : String) : Request :=
  authReq st st.api_url "/b2_get_upload_part_url" [("fileId", fid)] none tok

/-- The part-upload url echoed for the part-url request. -/
def partTargetUrl (env : Env) (st : St) (fid tok : String) : String :=
  (env.remote (partUrlRequest st fid tok)).json.uploadUrl

/-- The part-upload token echoed for the part-url request. -/
def partTargetTok (env : Env) (st : St) (fid tok : String) : String :=
  (env.remote (partUrlRequest st fid tok)).json.authorizationToken

/-- The state after fetching and caching the part-upload target. -/
def partFetchedSt (env : Env) (st : St) (fid tok : String) : St :=
  { authBump st tok with
    file_upload_urls := dictInsert st.file_upload_urls fid
      (partTargetUrl env st fid tok, partTargetTok env st fid tok) }

@[simp]
theorem partFetchedSt_auth_token (env : Env) (st : St) (fid tok : String) :
    (partFetchedSt env st fid tok).auth_token = st.auth_token := rfl

@[simp]
theorem partFetchedSt_api_url (env : Env) (st : St) (fid tok : String) :
    (partFetchedSt env st fid tok).api_url = st.api_url := rfl

@[simp]
theorem partFetchedSt_file_part_size (env : Env) (st : St) (fid tok : String) :
    (partFetchedSt env st fid tok).file_part_size = st.file_part_size := rfl

@[simp]
theorem partFetchedSt_upload_urls (env : Env) (st : St) (fid tok : String) :
    (partFetchedSt env st fid tok).upload_urls = st.upload_urls := rfl

@[simp]
theorem partFetchedSt_file_upload_urls (env : Env) (st : St) (fid tok : String) :
    (partFetchedSt env st fid tok).file_upload_urls =
      dictInsert st.file_upload_urls fid
        (partTargetUrl env st fid tok, partTargetTok env st fid tok) := rfl

theorem get_part_url_ok (env : Env) (st : St) (fid tok : String)
    (htok : st.auth_token = some tok) (hne : tok ≠ "")
    (hok : ∀ q, (env.remote q).status_code < 400) :
    _get_file_part_upload_url env st fid =
      ([partUrlRequest st fid tok], Except.ok ((), partFetchedSt env st fid tok)) := by
  unfold _get_file_part_upload_url
  rw [call_auth_ok env st st.api_url "/b2_get_upload_part_url" [("fileId", fid)]
    none tok htok hne (hok _)]
  simp [partUrlRequest, partFetchedSt, partTargetUrl, partTargetTok, authBump]

/-- The POST request uploading one part. -/
def mkPartReq (env : Env) (u t : String) (idx : Nat) (p : Bytes) : Request :=
  ⟨u, "",
   [("Authorization", t), ("X-Bz-Part-Number", toString idx),
    ("Content-Length", toString p.length), ("X-Bz-Content-Sha1", env.sha1 p)],
   [], some (ReqData.content p)⟩

/-- The sequence of part-upload requests for a list of parts, with
consecutive part numbers from idx. -/
def partTrace (env : Env) (u t : String) : Nat → List Bytes → List Request
  | _, [] => []
  | idx, p :: rest => mkPartReq env u t idx p :: partTrace env u t (idx + 1) rest

/-- The contentSha1 values the remote side echoes for those uploads, in
the same order. -/
def partHashes (env : Env) (u t : String) : Nat → List Bytes → List String
  | _, [] => []
  | idx, p :: rest =>
    (env.remote (mkPartReq env u t idx p)).json.contentSha1 ::
      partHashes env u t (idx + 1) rest

theorem part_ok_cached (env : Env) (st : St) (fid u t : String) (idx : Nat) (p : Bytes)
    (hhit : dictGet? st.file_upload_urls fid = some (u, t))
    (hok : (env.remote (mkPartReq env u t idx p)).status_code < 400) :
    _upload_large_file_part env st fid idx p =
      ([mkPartReq env u t idx p],
       Except.ok ((env.remote (mkPartReq env u t idx p)).json, st)) := by
  unfold _upload_large_file_part
  rw [hhit]
  simp only [Option.isNone_some, Bool.false_eq_true, if_false, Res.bind_ok,
    List.nil_append]
  rw [hhit]
  dsimp only
  rw [call_noauth_ok env st u ""
    [("Authorization", t), ("X-Bz-Part-Number", toString idx),
     ("Content-Length", toString p.length), ("X-Bz-Content-Sha1", env.sha1 p)]
    [] (some (ReqData.content p)) (by simpa [mkPartReq] using hok)]
  simp [mkPartReq]

theorem uploadParts_cons (env : Env) (fid : String) (idx : Nat) (p : Bytes)
    (rest : List Bytes) (st : St) :
    uploadParts env fid idx (p :: rest) st =
      Res.bind (_upload_large_file_part env st fid idx p) (fun respJson st1 =>
        Res.bind (uploadParts env fid (idx + 1) rest st1) fun hs st2 =>
          ([], Except.ok (respJson.contentSha1 :: hs, st2))) := rfl

theorem uploadParts_ok (env : Env) (fid u t : String)
    (hok : ∀ q, (env.remote q).status_code < 400) :
    ∀ (parts : List Bytes) (idx : Nat) (st : St),
      dictGet? st.file_upload_urls fid = some (u, t) →
      uploadParts env fid idx parts st =
        (partTrace env u t idx parts, Except.ok (partHashes env u t idx parts, st)) := by
  intro parts
  induction parts with
  | nil => intro idx st h; rfl
  | cons p rest ih =>
    intro idx st h
    rw [uploadParts_cons]
    rw [part_ok_cached env st fid u t idx p h (hok _)]
    simp only [Res.bind_ok, List.nil_append]
    rw [ih (idx + 1) st h]
    simp [partTrace, partHashes]

theorem uploadParts_miss (env : Env) (fid tok : String) (parts : List Bytes)
    (idx : Nat) (st : St)
    (htok : st.auth_token = some tok) (hne : tok ≠ "")
    (hok : ∀ q, (env.remote q).status_code < 400)
    (hmiss : dictGet? st.file_upload_urls fid = none)
    (hcons : parts ≠ []) :
    uploadParts env fid idx parts st =
      (partUrlRequest st fid tok ::
        partTrace env (partTargetUrl env st fid tok) (partTargetTok env st fid tok) idx parts,
       Except.ok (partHashes env (partTargetUrl env st fid tok) (partTargetTok env st fid tok) idx parts,
         partFetchedSt env st fid tok)) := by
  cases parts with
  | nil => exact absurd rfl hcons
  | cons p rest =>
    rw [uploadParts_cons]
    unfold _upload_large_file_part
    rw [hmiss]
    simp only [Option.isNone_none, eq_self_iff_true, if_true, Res.bind_ok]
    rw [get_part_url_ok env st fid tok htok hne hok]
    simp only [Res.bind_ok, List.nil_append]
    have hh : dictGet? (partFetchedSt env st fid tok).file_upload_urls fid =
        some (partTargetUrl env st fid tok, partTargetTok env st fid tok) := by
      simp
    rw [hh]
    dsimp only
    have hc := call_noauth_ok env (partFetchedSt env st fid tok)
      (partTargetUrl env st fid tok) ""
      [("Authorization", partTargetTok env st fid tok), ("X-Bz-Part-Number", toString idx),
       ("Content-Length", toString p.length), ("X-Bz-Content-Sha1", env.sha1 p)]
      [] (some (ReqData.content p)) (hok _)
    rw [hc]
    simp only [Res.bind_ok, List.nil_append]
    rw [uploadParts_ok env fid (partTargetUrl env st fid tok) (partTargetTok env st fid tok)
      hok rest (idx + 1) (partFetchedSt env st fid tok) hh]
    simp [partTrace, partHashes, mkPartReq]

/-- The finish request issued from a given state. -/
def finishRequest (st : St) (fid : String) (hashes : List String) (tok : String) : Request :=
  authReq st st.api_url "/b2_finish_large_file" []
    (some (ReqData.jsonFinish fid hashes)) tok

theorem finish_ok (env : Env) (st : St) (fid : String) (hashes : List String) (tok : String)
    (htok : st.auth_token = some tok) (hne : tok ≠ "")
    (hok : ∀ q, (env.remote q).status_code < 400) :
    _finish_large_file_upload env st fid hashes =
      ([finishRequest st fid hashes tok],
       Except.ok ((env.remote (finishRequest st fid hashes tok)).json, authBump st tok)) := by
  unfold _finish_large_file_upload
  rw [call_auth_ok env st st.api_url "/b2_finish_large_file" []
    (some (ReqData.jsonFinish fid hashes)) tok htok hne (hok _)]
  simp [finishRequest]

/-- Closed form of a successful large upload whose part-upload target is
already cached: the start request, the part uploads in order, the finish
request. -/
theorem upload_large_ok_hit (env : Env) (st : St) (b n : String) (contents : Bytes)
    (ct : Option String) (tok u t : String)
    (htok : st.auth_token = some tok) (hne : tok ≠ "")
    (hok : ∀ q, (env.remote q).status_code < 400)
    (hnp : 2 ≤ numParts contents.length st.file_part_size)
    (hhit : dictGet? st.file_upload_urls (startFid env st b n ct tok) = some (u, t)) :
    _upload_large_file env st b n contents ct =
      (startRequest st b n ct tok ::
        (partTrace env u t 1 (splitParts contents st.file_part_size) ++
         [finishRequest (authBump st tok) (startFid env st b n ct tok)
           (partHashes env u t 1 (splitParts contents st.file_part_size)) tok]),
       Except.ok ((env.remote (finishRequest (authBump st tok) (startFid env st b n ct tok)
           (partHashes env u t 1 (splitParts contents st.file_part_size)) tok)).json,
         authBump (authBump st tok) tok)) := by
  unfold _upload_large_file
  rw [start_ok env st b n ct tok htok hne hok]
  simp only [Res.bind_ok, authBump_file_part_size]
  rw [if_neg (Nat.not_lt.mpr hnp)]
  rw [uploadParts_ok env (startFid env st b n ct tok) u t hok
    (splitParts contents st.file_part_size) 1 (authBump st tok) (by simpa using hhit)]
  simp only [Res.bind_ok, List.nil_append]
  rw [finish_ok env (authBump st tok) (startFid env st b n ct tok)
    (partHashes env u t 1 (splitParts contents st.file_part_size)) tok
    (by simpa using htok) hne hok]
  simp

/-- Closed form of a successful large upload whose part-upload target is
not yet cached: the start request, one part-url fetch, the part uploads in
order, the finish request. -/
theorem upload_large_ok_miss (env : Env) (st : St) (b n : String) (contents : Bytes)
    (ct : Option String) (tok : String)
    (htok : st.auth_token = some tok) (hne : tok ≠ "")
    (hok : ∀ q, (env.remote q).status_code < 400)
    (hnp : 2 ≤ numParts contents.length st.file_part_size)
    (hmiss : dictGet? st.file_upload_urls (startFid env st b n ct tok) = none) :
    _upload_large_file env st b n contents ct =
      (startRequest st b n ct tok ::
        (partUrlRequest (authBump st tok) (startFid env st b n ct tok) tok ::
          partTrace env
            (partTargetUrl env (authBump st tok) (startFid env st b n ct tok) tok)
            (partTargetTok env (authBump st tok) (startFid env st b n ct tok) tok)
            1 (splitParts contents st.file_part_size) ++
         [finishRequest (partFetchedSt env (authBump st tok) (startFid env st b n ct tok) tok)
           (startFid env st b n ct tok)
           (partHashes env
             (partTargetUrl env (authBump st tok) (startFid env st b n ct tok) tok)
             (partTargetTok env (authBump st tok) (startFid env st b n ct tok) tok)
             1 (splitParts contents st.file_part_size)) tok]),
       Except.ok ((env.remote
           (finishRequest (partFetchedSt env (authBump st tok) (startFid env st b n ct tok) tok)
             (startFid env st b n ct tok)
             (partHashes env
               (partTargetUrl env (authBump st tok) (startFid env st b n ct tok) tok)
               (partTargetTok env (authBump st tok) (startFid env st b n ct tok) tok)
               1 (splitParts contents st.file_part_size)) tok)).json,
         authBump (partFetchedSt env (authBump st tok) (startFid env st b n ct tok) tok) tok)) := by
  have hcons : splitParts contents st.file_part_size ≠ [] := by
    intro hnil
    have := splitParts_length contents st.file_part_size
    rw [hnil] at this
    simp at this
    omega
  unfold _upload_large_file
  rw [start_ok env st b n ct tok htok hne hok]
  simp only [Res.bind_ok, authBump_file_part_size]
  rw [if_neg (Nat.not_lt.mpr hnp)]
  rw [uploadParts_miss env (startFid env st b n ct tok) tok
    (splitParts contents st.file_part_size) 1 (authBump st tok)
    (by simpa using htok) hne hok (by simpa using hmiss) hcons]
  simp only [Res.bind_ok, List.nil_append]
  rw [finish_ok env (partFetchedSt env (authBump st tok) (startFid env st b n ct tok) tok)
    (startFid env st b n ct tok)
    (partHashes env
      (partTargetUrl env (authBump st tok) (startFid env st b n ct tok) tok)
      (partTargetTok env (authBump st tok) (startFid env st b n ct tok) tok)
      1 (splitParts contents st.file_part_size)) tok
    (by simpa using htok) hne hok]
  simp

/-! ### The shape of a part-upload trace -/

@[simp]
theorem isContentUpload_startRequest (st : St) (b n : String) (ct : Option String)
    (tok : String) : isContentUpload (startRequest st b n ct tok) = false := rfl

@[simp]
theorem isContentUpload_partUrlRequest (st : St) (fid tok : String) :
    isContentUpload (partUrlRequest st fid tok) = false := rfl

@[simp]
theorem isContentUpload_finishRequest (st : St) (fid : String) (hashes : List String)
    (tok : String) : isContentUpload (finishRequest st fid hashes tok) = false := rfl

@[simp]
theorem isContentUpload_mkPartReq (env : Env) (u t : String) (idx : Nat) (p : Bytes) :
    isContentUpload (mkPartReq env u t idx p) = true := rfl

theorem getLast?_cons_concat (x : Request) (l : List Request) (a : Request) :
    (x :: (l ++ [a])).getLast? = some a := by
  rw [← List.cons_append, List.getLast?_append_cons]
  rfl

theorem partTrace_filter (env : Env) (u t : String) :
    ∀ (ps : List Bytes) (idx : Nat),
      (partTrace env u t idx ps).filter isContentUpload = partTrace env u t idx ps := by
  intro ps
  induction ps with
  | nil => intro idx; rfl
  | cons p rest ih =>
    intro idx
    simp [partTrace, List.filter_cons, ih (idx + 1)]

theorem dictGet?_mkPartReq_num (env : Env) (u t : String) (idx : Nat) (p : Bytes) :
    dictGet? (mkPartReq env u t idx p).headers "X-Bz-Part-Number" = some (toString idx) := by
  simp [mkPartReq, dictGet?]

theorem partTrace_map_partNumber (env : Env) (u t : String) :
    ∀ (ps : List Bytes) (idx : Nat),
      (partTrace env u t idx ps).map (fun q => dictGet? q.headers "X-Bz-Part-Number") =
        (List.range' idx ps.length).map (fun j => some (toString j)) := by
  intro ps
  induction ps with
  | nil => intro idx; rfl
  | cons p rest ih =>
    intro idx
    simp [partTrace, List.range', dictGet?_mkPartReq_num, ih (idx + 1)]

theorem partTrace_map_data (env : Env) (u t : String) :
    ∀ (ps : List Bytes) (idx : Nat),
      (partTrace env u t idx ps).map Request.data =
        ps.map (fun p => some (ReqData.content p)) := by
  intro ps
  induction ps with
  | nil => intro idx; rfl
  | cons p rest ih =>
    intro idx
    simp [partTrace, mkPartReq, ih (idx + 1)]

theorem partTrace_map_hash (env : Env) (u t : String) :
    ∀ (ps : List Bytes) (idx : Nat),
      (partTrace env u t idx ps).map (fun q => (env.remote q).json.contentSha1) =
        partHashes env u t idx ps := by
  intro ps
  induction ps with
  | nil => intro idx; rfl
  | cons p rest ih =>
    intro idx
    simp [partTrace, partHashes, ih (idx + 1)]

theorem partTrace_map_host (env : Env) (u t : String) :
    ∀ (ps : List Bytes) (idx : Nat),
      (partTrace env u t idx ps).map Request.host = List.replicate ps.length u := by
  intro ps
  induction ps with
  | nil => intro idx; rfl
  | cons p rest ih =>
    intro idx
    simp [partTrace, mkPartReq, List.replicate, ih (idx + 1)]

/-! ### C3: sequential 1-based part order and echoed hashes at finalize -/

/-- C3: in a successful large upload the part uploads appear in the trace
in strictly increasing 1-based part-number order carrying the split parts
in order, and the last request is the finish request whose hash list is
exactly the contentSha1 values the remote echoed for the part uploads, in
upload order. -/
theorem large_upload_sequential_hashes (env : Env) (st : St) (b n : String)
    (contents : Bytes) (ct : Option String) (tok : String)
    (htok : st.auth_token = some tok) (hne : tok ≠ "")
    (hok : ∀ q, (env.remote q).status_code < 400)
    (hs : 0 < st.file_part_size) (hL : st.file_part_size < contents.length) :
    ∃ resp st' fid finReq,
      (_upload_large_file env st b n contents ct).2 = Except.ok (resp, st') ∧
      ((_upload_large_file env st b n contents ct).1.filter isContentUpload).map
          (fun q => dictGet? q.headers "X-Bz-Part-Number") =
        (List.range' 1 (numParts contents.length st.file_part_size)).map
          (fun j => some (toString j)) ∧
      ((_upload_large_file env st b n contents ct).1.filter isContentUpload).map
          Request.data =
        (splitParts contents st.file_part_size).map (fun p => some (ReqData.content p)) ∧
      (_upload_large_file env st b n contents ct).1.getLast? = some finReq ∧
      finReq.endpoint = "/b2_finish_large_file" ∧
      finReq.data = some (ReqData.jsonFinish fid
        (((_upload_large_file env st b n contents ct).1.filter isContentUpload).map
          (fun q => (env.remote q).json.contentSha1))) := by
  have hnp : 2 ≤ numParts contents.length st.file_part_size := by
    have h1 := (Nat.one_le_div_iff hs).mpr (Nat.le_of_lt hL)
    unfold numParts
    omega
  have hlen := splitParts_length contents st.file_part_size
  cases hcache : dictGet? st.file_upload_urls (startFid env st b n ct tok) with
  | none =>
    rw [upload_large_ok_miss env st b n contents ct tok htok hne hok hnp hcache]
    have hfil :
        ((startRequest st b n ct tok ::
          (partUrlRequest (authBump st tok) (startFid env st b n ct tok) tok ::
            partTrace env
              (partTargetUrl env (authBump st tok) (startFid env st b n ct tok) tok)
              (partTargetTok env (authBump st tok) (startFid env st b n ct tok) tok)
              1 (splitParts contents st.file_part_size) ++
           [finishRequest (partFetchedSt env (authBump st tok) (startFid env st b n ct tok) tok)
             (startFid env st b n ct tok)
             (partHashes env
               (partTargetUrl env (authBump st tok) (startFid env st b n ct tok) tok)
               (partTargetTok env (authBump st tok) (startFid env st b n ct tok) tok)
               1 (splitParts contents st.file_part_size)) tok])).filter isContentUpload) =
          partTrace env
            (partTargetUrl env (authBump st tok) (startFid env st b n ct tok) tok)
            (partTargetTok env (authBump st tok) (startFid env st b n ct tok) tok)
            1 (splitParts contents st.file_part_size) := by
      simp [List.filter_cons, List.filter_append, partTrace_filter]
    refine ⟨_, _, startFid env st b n ct tok,
      finishRequest (partFetchedSt env (authBump st tok) (startFid env st b n ct tok) tok)
        (startFid env st b n ct tok)
        (partHashes env
          (partTargetUrl env (authBump st tok) (startFid env st b n ct tok) tok)
          (partTargetTok env (authBump st tok) (startFid env st b n ct tok) tok)
          1 (splitParts contents st.file_part_size)) tok,
      rfl, ?_, ?_, ?_, rfl, ?_⟩
    · rw [hfil, partTrace_map_partNumber, hlen]
    · rw [hfil, partTrace_map_data]
    · exact getLast?_cons_concat _ _ _
    · rw [hfil, partTrace_map_hash]
      rfl
  | some ut =>
    obtain ⟨u, t⟩ := ut
    rw [upload_large_ok_hit env st b n contents ct tok u t htok hne hok hnp hcache]
    have hfil :
        ((startRequest st b n ct tok ::
          (partTrace env u t 1 (splitParts contents st.file_part_size) ++
           [finishRequest (authBump st tok) (startFid env st b n ct tok)
             (partHashes env u t 1 (splitParts contents st.file_part_size)) tok])).filter
          isContentUpload) =
          partTrace env u t 1 (splitParts contents st.file_part_size) := by
      simp [List.filter_cons, List.filter_append, partTrace_filter]
    refine ⟨_, _, startFid env st b n ct tok,
      finishRequest (authBump st tok) (startFid env st b n ct tok)
        (partHashes env u t 1 (splitParts contents st.file_part_size)) tok,
      rfl, ?_, ?_, ?_, rfl, ?_⟩
    · rw [hfil, partTrace_map_partNumber, hlen]
    · rw [hfil, partTrace_map_data]
    · exact getLast?_cons_concat _ _ _
    · rw [hfil, partTrace_map_hash]
      rfl

/-- Witness for large_upload_sequential_hashes on a concrete run. -/
theorem large_upload_sequential_hashes_witness :
    (sampleSt.auth_token = some "TOKEN" ∧ "TOKEN" ≠ "" ∧
      (∀ q, (sampleEnv.remote q).status_code < 400) ∧
      0 < sampleSt.file_part_size ∧
      sampleSt.file_part_size < (List.replicate 250 7 : Bytes).length) ∧
    (∃ resp st' fid finReq,
      (_upload_large_file sampleEnv sampleSt "b" "f" (List.replicate 250 7) none).2 =
        Except.ok (resp, st') ∧
      ((_upload_large_file sampleEnv sampleSt "b" "f" (List.replicate 250 7) none).1.filter
          isContentUpload).map (fun q => dictGet? q.headers "X-Bz-Part-Number") =
        (List.range' 1 (numParts (List.replicate 250 7 : Bytes).length
          sampleSt.file_part_size)).map (fun j => some (toString j)) ∧
      ((_upload_large_file sampleEnv sampleSt "b" "f" (List.replicate 250 7) none).1.filter
          isContentUpload).map Request.data =
        (splitParts (List.replicate 250 7) sampleSt.file_part_size).map
          (fun p => some (ReqData.content p)) ∧
      (_upload_large_file sampleEnv sampleSt "b" "f" (List.replicate 250 7) none).1.getLast? =
        some finReq ∧
      finReq.endpoint = "/b2_finish_large_file" ∧
      finReq.data = some (ReqData.jsonFinish fid
        (((_upload_large_file sampleEnv sampleSt "b" "f" (List.replicate 250 7) none).1.filter
          isContentUpload).map (fun q => (sampleEnv.remote q).json.contentSha1)))) :=
  ⟨⟨rfl, by decide, fun q => by simp [sampleEnv], by decide,
    by rw [List.length_replicate]; decide⟩,
   large_upload_sequential_hashes sampleEnv sampleSt "b" "f" (List.replicate 250 7) none
     "TOKEN" rfl (by decide) (fun q => by simp [sampleEnv]) (by decide)
     (by rw [List.length_replicate]; decide)⟩

/-! ### C7: the too-small guard branch is unreachable under correct routing -/

/-- A computation that can never raise the too-small error. -/
def NotTooSmall (r : Res α) : Prop :=
  ∀ e, r.2 = Except.error e → e ≠ B2Error.tooSmall

theorem notTooSmall_call (env : Env) (st : St) (host ep : String)
    (headers : Option (Dict String)) (body : Dict String) (ra : Bool)
    (data : Option ReqData) : NotTooSmall (_call env st host ep headers body ra data) := by
  intro e he
  by_cases hguard : (ra && !(authorized st)) = true
  · simp [_call, hguard] at he
    simp [← he]
  · rw [call_eq env st host ep headers body ra data (by simpa using hguard)] at he
    dsimp only at he
    split at he
    · simp at he
      simp [← he]
    · simp at he

theorem notTooSmall_bind (r : Res α) (f : α → St → Res β) (hr : NotTooSmall r)
    (hf : ∀ a st1, r.2 = Except.ok (a, st1) → NotTooSmall (f a st1)) :
    NotTooSmall (Res.bind r f) := by
  obtain ⟨evs, exc⟩ := r
  cases exc with
  | error e =>
    intro e2 he2
    exact hr e2 (by simpa [Res.bind] using he2)
  | ok p =>
    obtain ⟨a, st1⟩ := p
    intro e2 he2
    exact hf a st1 rfl e2 (by simpa [Res.bind] using he2)

theorem notTooSmall_pure (evs : List Request) (a : α) (st : St) :
    NotTooSmall ((evs, Except.ok (a, st)) : Res α) := by
  intro e he
  simp at he

theorem notTooSmall_get_part_url (env : Env) (st : St) (fid : String) :
    NotTooSmall (_get_file_part_upload_url env st fid) := by
  unfold _get_file_part_upload_url
  exact notTooSmall_bind _ _ (notTooSmall_call _ _ _ _ _ _ _ _)
    (fun a st1 _ => notTooSmall_pure _ _ _)

theorem notTooSmall_part (env : Env) (st : St) (fid : String) (idx : Nat) (p : Bytes) :
    NotTooSmall (_upload_large_file_part env st fid idx p) := by
  unfold _upload_large_file_part
  refine notTooSmall_bind _ _ ?_ ?_
  · split
    · exact notTooSmall_get_part_url env st fid
    · exact notTooSmall_pure _ _ _
  · intro a st1 _
    cases hm : dictGet? st1.file_upload_urls fid with
    | none =>
      intro e he
      simp only [hm] at he
      simp at he
      simp [← he]
    | some ut =>
      obtain ⟨u, t⟩ := ut
      intro e he
      simp only [hm] at he
      exact notTooSmall_bind _ _ (notTooSmall_call _ _ _ _ _ _ _ _)
        (fun a2 st2 _ => notTooSmall_pure _ _ _) e he

theorem notTooSmall_uploadParts (env : Env) (fid : String) :
    ∀ (parts : List Bytes) (idx : Nat) (st : St),
      NotTooSmall (uploadParts env fid idx parts st) := by
  intro parts
  induction parts with
  | nil => intro idx st; exact notTooSmall_pure _ _ _
  | cons p rest ih =>
    intro idx st
    rw [uploadParts_cons]
    exact notTooSmall_bind _ _ (notTooSmall_part env st fid idx p)
      (fun a st1 _ => notTooSmall_bind _ _ (ih (idx + 1) st1)
        (fun hs st2 _ => notTooSmall_pure _ _ _))

theorem notTooSmall_finish (env : Env) (st : St) (fid : String) (hashes : List String) :
    NotTooSmall (_finish_large_file_upload env st fid hashes) := by
  unfold _finish_large_file_upload
  exact notTooSmall_bind _ _ (notTooSmall_call _ _ _ _ _ _ _ _)
    (fun a st1 _ => notTooSmall_pure _ _ _)

/-- A successful start-large-file call does not change the minimum part
size held in the session. -/
theorem start_state (env : Env) (st : St) (b n : String) (ct : Option String)
    (fid : String) (st1 : St)
    (h : (_start_large_file_upload env st b n ct).2 = Except.ok (fid, st1)) :
    st1.file_part_size = st.file_part_size := by
  unfold _start_large_file_upload at h
  dsimp only at h
  obtain ⟨resp, stm, hc, hf⟩ := Res.bind_eq_ok _ _ _ _ h
  simp only [Except.ok.injEq, Prod.mk.injEq] at hf
  obtain ⟨hfid, hst⟩ := hf
  rw [← hst]
  exact (call_ok_state env st _ _ _ _ _ _ resp stm hc).2.2.1

/-- C7: under the routing precondition (payload strictly longer than the
part size, positive part size), the computed part count is at least 2, so
_upload_large_file can never raise the too-small error. -/
theorem numParts_guard_unreachable (env : Env) (st : St) (b n : String)
    (contents : Bytes) (ct : Option String)
    (hs : 0 < st.file_part_size) (hL : st.file_part_size < contents.length) :
    2 ≤ numParts contents.length st.file_part_size ∧
    (∀ e, (_upload_large_file env st b n contents ct).2 = Except.error e →
      e ≠ B2Error.tooSmall) := by
  have hnp : 2 ≤ numParts contents.length st.file_part_size := by
    have h1 := (Nat.one_le_div_iff hs).mpr (Nat.le_of_lt hL)
    unfold numParts
    omega
  refine ⟨hnp, ?_⟩
  unfold _upload_large_file
  refine notTooSmall_bind _ _ (notTooSmall_bind _ _ (notTooSmall_call _ _ _ _ _ _ _ _)
    (fun a st1 _ => notTooSmall_pure _ _ _)) ?_
  intro fid st1 hok1
  have hfps : st1.file_part_size = st.file_part_size :=
    start_state env st b n ct fid st1 hok1
  rw [hfps]
  rw [if_neg (Nat.not_lt.mpr hnp)]
  exact notTooSmall_bind _ _ (notTooSmall_uploadParts env fid _ _ _)
    (fun hashes st2 _ => notTooSmall_finish env st2 fid hashes)

/-- Witness for numParts_guard_unreachable on the sample state. -/
theorem numParts_guard_unreachable_witness :
    (0 < sampleSt.file_part_size ∧
      sampleSt.file_part_size < (List.replicate 250 7 : Bytes).length) ∧
    (2 ≤ numParts (List.replicate 250 7 : Bytes).length sampleSt.file_part_size ∧
    (∀ e, (_upload_large_file sampleEnv sampleSt "b" "f" (List.replicate 250 7) none).2 =
        Except.error e → e ≠ B2Error.tooSmall)) :=
  ⟨⟨by decide, by rw [List.length_replicate]; decide⟩,
   numParts_guard_unreachable sampleEnv sampleSt "b" "f" (List.replicate 250 7) none
     (by decide) (by rw [List.length_replicate]; decide)⟩

/-! ### C2: where the too-small failure actually happens -/

/-- Counterexample to C2 as stated: on an empty payload the large upload
does raise the too-small error, but only after the start-large-file
request has already been issued — the trace is not empty and consists of
exactly that request. -/
theorem tooSmall_not_before_start_cex :
    (_upload_large_file sampleEnv sampleSt "bucket" "file" [] none).2 =
      Except.error B2Error.tooSmall ∧
    (_upload_large_file sampleEnv sampleSt "bucket" "file" [] none).1 ≠ [] ∧
    (_upload_large_file sampleEnv sampleSt "bucket" "file" [] none).1.map
      Request.endpoint = ["/b2_start_large_file"] := by
  refine ⟨rfl, by decide, by decide⟩

/-- C2 amended: when the computed part count is below 2 and the start call
succeeds, the large upload fails with the too-small error after issuing
exactly one request — the start-large-file request — and before any
part-url fetch, part upload or finish request. -/
theorem tooSmall_after_start (env : Env) (st : St) (b n : String)
    (contents : Bytes) (ct : Option String) (tok : String)
    (htok : st.auth_token = some tok) (hne : tok ≠ "")
    (hok : ∀ q, (env.remote q).status_code < 400)
    (hsmall : contents.length < st.file_part_size) :
    (_upload_large_file env st b n contents ct).2 = Except.error B2Error.tooSmall ∧
    (_upload_large_file env st b n contents ct).1.map Request.endpoint =
      ["/b2_start_large_file"] := by
  have hnp : numParts contents.length st.file_part_size < 2 := by
    unfold numParts
    rw [Nat.div_eq_of_lt hsmall]
    omega
  unfold _upload_large_file
  rw [start_ok env st b n ct tok htok hne hok]
  simp only [Res.bind_ok, authBump_file_part_size]
  rw [if_pos hnp]
  exact ⟨rfl, by simp [startRequest, authReq]⟩

/-- Witness for tooSmall_after_start on a 3-byte payload. -/
theorem tooSmall_after_start_witness :
    (sampleSt.auth_token = some "TOKEN" ∧ "TOKEN" ≠ "" ∧
      (∀ q, (sampleEnv.remote q).status_code < 400) ∧
      ([9, 9, 9] : Bytes).length < sampleSt.file_part_size) ∧
    ((_upload_large_file sampleEnv sampleSt "b" "f" [9, 9, 9] none).2 =
      Except.error B2Error.tooSmall ∧
    (_upload_large_file sampleEnv sampleSt "b" "f" [9, 9, 9] none).1.map
      Request.endpoint = ["/b2_start_large_file"]) :=
  ⟨⟨rfl, by decide, fun q => by simp [sampleEnv], by decide⟩,
   tooSmall_after_start sampleEnv sampleSt "b" "f" [9, 9, 9] none "TOKEN" rfl
     (by decide) (fun q => by simp [sampleEnv]) (by decide)⟩

/-! ### Closed forms for the simple-upload path -/

/-- The get-upload-url request issued from a given state. -/
def uploadUrlRequest (st : St) (b tok : String) : Request :=
  authReq st st.api_url "/b2_get_upload_url" [("bucketId", b)] none tok

/-- The small-file upload url echoed for the get-upload-url request. -/
def bucketTargetUrl (env : Env) (st : St) (b tok : String) : String :=
  (env.remote (uploadUrlRequest st b tok)).json.uploadUrl

/-- The small-file upload token echoed for the get-upload-url request. -/
def bucketTargetTok (env : Env) (st : St) (b tok : String) : String :=
  (env.remote (uploadUrlRequest st b tok)).json.authorizationToken

/-- The state after fetching and caching the bucket upload target. -/
def bucketFetchedSt (env : Env) (st : St) (b tok : String) : St :=
  { authBump st tok with
    upload_urls := dictInsert st.upload_urls b
      (bucketTargetUrl env st b tok, bucketTargetTok env st b tok) }

@[simp]
theorem bucketFetchedSt_upload_urls (env : Env) (st : St) (b tok : String) :
    (bucketFetchedSt env st b tok).upload_urls =
      dictInsert st.upload_urls b
        (bucketTargetUrl env st b tok, bucketTargetTok env st b tok) := rfl

@[simp]
theorem bucketFetchedSt_file_upload_urls (env : Env) (st : St) (b tok : String) :
    (bucketFetchedSt env st b tok).file_upload_urls = st.file_upload_urls := rfl

@[simp]
theorem bucketFetchedSt_auth_token (env : Env) (st : St) (b tok : String) :
    (bucketFetchedSt env st b tok).auth_token = st.auth_token := rfl

theorem get_upload_url_ok (env : Env) (st : St) (b tok : String)
    (htok : st.auth_token = some tok) (hne : tok ≠ "")
    (hok : ∀ q, (env.remote q).status_code < 400) :
    _get_upload_url env st b =
      ([uploadUrlRequest st b tok], Except.ok ((), bucketFetchedSt env st b tok)) := by
  unfold _get_upload_url
  rw [call_auth_ok env st st.api_url "/b2_get_upload_url" [("bucketId", b)]
    none tok htok hne (hok _)]
  simp [uploadUrlRequest, bucketFetchedSt, bucketTargetUrl, bucketTargetTok, authBump]

/-- The POST request of a simple upload. -/
def simplePostReq (env : Env) (u t n : String) (contents : Bytes)
    (ct : Option String) : Request :=
  ⟨u, "",
   [("Authorization", t), ("X-Bz-File-Name", n),
    ("Content-Type", orDefault ct "b2/x-auto"),
    ("Content-Length", toString contents.length),
    ("X-Bz-Content-Sha1", env.sha1 contents)],
   [], some (ReqData.content contents)⟩

@[simp]
theorem isContentUpload_uploadUrlRequest (st : St) (b tok : String) :
    isContentUpload (uploadUrlRequest st b tok) = false := rfl

@[simp]
theorem isContentUpload_simplePostReq (env : Env) (u t n : String) (contents : Bytes)
    (ct : Option String) : isContentUpload (simplePostReq env u t n contents ct) = true := rfl

theorem upload_simple_ok_miss (env : Env) (st : St) (b n : String) (contents : Bytes)
    (ct : Option String) (tok : String)
    (htok : st.auth_token = some tok) (hne : tok ≠ "")
    (hok : ∀ q, (env.remote q).status_code < 400)
    (hmiss : dictGet? st.upload_urls b = none) :
    _upload_simple env st b n contents ct =
      ([uploadUrlRequest st b tok,
        simplePostReq env (bucketTargetUrl env st b tok) (bucketTargetTok env st b tok)
          n contents ct],
       Except.ok ((env.remote (simplePostReq env (bucketTargetUrl env st b tok)
           (bucketTargetTok env st b tok) n contents ct)).json,
         bucketFetchedSt env st b tok)) := by
  unfold _upload_simple
  rw [hmiss]
  simp only [Option.isNone_none, eq_self_iff_true, if_true, Res.bind_ok]
  rw [get_upload_url_ok env st b tok htok hne hok]
  simp only [Res.bind_ok, List.nil_append]
  have hh : dictGet? (bucketFetchedSt env st b tok).upload_urls b =
      some (bucketTargetUrl env st b tok, bucketTargetTok env st b tok) := by
    simp
  rw [hh]
  dsimp only
  rw [call_noauth_ok env (bucketFetchedSt env st b tok) (bucketTargetUrl env st b tok) ""
    [("Authorization", bucketTargetTok env st b tok), ("X-Bz-File-Name", n),
     ("Content-Type", orDefault ct "b2/x-auto"),
     ("Content-Length", toString contents.length),
     ("X-Bz-Content-Sha1", env.sha1 contents)]
    [] (some (ReqData.content contents)) (hok _)]
  simp [simplePostReq]

theorem upload_simple_ok_hit (env : Env) (st : St) (b n : String) (contents : Bytes)
    (ct : Option String) (u t : String)
    (hok : ∀ q, (env.remote q).status_code < 400)
    (hhit : dictGet? st.upload_urls b = some (u, t)) :
    _upload_simple env st b n contents ct =
      ([simplePostReq env u t n contents ct],
       Except.ok ((env.remote (simplePostReq env u t n contents ct)).json, st)) := by
  unfold _upload_simple
  rw [hhit]
  simp only [Option.isNone_some, Bool.false_eq_true, if_false, Res.bind_ok,
    List.nil_append]
  rw [hhit]
  dsimp only
  rw [call_noauth_ok env st u ""
    [("Authorization", t), ("X-Bz-File-Name", n),
     ("Content-Type", orDefault ct "b2/x-auto"),
     ("Content-Length", toString contents.length),
     ("X-Bz-Content-Sha1", env.sha1 contents)]
    [] (some (ReqData.content contents)) (hok _)]
  simp [simplePostReq]

/-! ### C4: the upload dispatch and its threshold -/

/-- Every request issued by the simple-upload path hits the
get-upload-url endpoint or the opaque upload url (endpoint empty). -/
theorem mem_upload_simple_endpoint (env : Env) (st : St) (b n : String)
    (contents : Bytes) (ct : Option String) (q : Request)
    (hq : q ∈ (_upload_simple env st b n contents ct).1) :
    q.endpoint = "/b2_get_upload_url" ∨ q.endpoint = "" := by
  unfold _upload_simple at hq
  rcases Res.mem_bind _ _ q hq with h1 | ⟨a, st1, hok1, h2⟩
  · split at h1
    · unfold _get_upload_url at h1
      rcases Res.mem_bind _ _ q h1 with h3 | ⟨a2, st2, hok2, h4⟩
      · rw [call_trace] at h3
        split at h3
        · simp at h3
        · simp at h3
          subst h3
          left
          rfl
      · simp at h4
    · simp at h1
  · cases hm : dictGet? st1.upload_urls b with
    | none =>
      simp only [hm] at h2
      simp at h2
    | some ut =>
      obtain ⟨u, t⟩ := ut
      simp only [hm] at h2
      rcases Res.mem_bind _ _ q h2 with h3 | ⟨a2, st2, hok2, h4⟩
      · rw [call_trace] at h3
        split at h3
        · simp at h3
        · simp at h3
          subst h3
          right
          rfl
      · simp at h4

/-- Inversion of a successful unauthenticated call: the response returned
is what the remote answered to the one request issued. -/
theorem call_noauth_inv (env : Env) (st : St) (host ep : String)
    (hd : Option (Dict String)) (body : Dict String) (data : Option ReqData)
    (resp : Response) (st' : St)
    (h : (_call env st host ep hd body false data).2 = Except.ok (resp, st')) :
    resp = env.remote (callReq st host ep hd body false data) ∧
    (_call env st host ep hd body false data).1 =
      [callReq st host ep hd body false data] := by
  rw [call_eq env st host ep hd body false data (by simp)] at h ⊢
  refine ⟨?_, rfl⟩
  dsimp only at h
  split at h
  · simp at h
  · simp only [Except.ok.injEq, Prod.mk.injEq] at h
    exact h.1.symm

/-- The authorize call issues exactly the requests of its single _call. -/
theorem authorize_trace (env : Env) (st : St) :
    (_authorize env st).1 =
      (_call env st B2_API_BASE "/b2_authorize_account" none [] false none).1 := by
  unfold _authorize
  rcases h2 : _call env st B2_API_BASE "/b2_authorize_account" none [] false none
    with ⟨evs, exc⟩
  cases exc with
  | error e => rfl
  | ok p =>
    obtain ⟨a, st2⟩ := p
    show evs ++ _ = evs
    dsimp only
    split <;> simp

/-- C4: upload_file dispatches on len(contents) against the session's
file_part_size: at or below the threshold it runs the simple path, which
issues exactly one content POST and never calls start-large-file; above
it it runs the large path.  The threshold itself is the
absoluteMinimumPartSize field of the authorize response, not a constant. -/
theorem upload_file_routing (env : Env) (st : St) (b n : String) (contents : Bytes)
    (ct : Option String) :
    (contents.length ≤ st.file_part_size →
      upload_file env st b n contents ct = _upload_simple env st b n contents ct ∧
      (∀ q ∈ (upload_file env st b n contents ct).1,
        q.endpoint ≠ "/b2_start_large_file")) ∧
    (st.file_part_size < contents.length →
      upload_file env st b n contents ct = _upload_large_file env st b n contents ct) ∧
    (∀ tok, st.auth_token = some tok → tok ≠ "" →
      (∀ q, (env.remote q).status_code < 400) →
      contents.length ≤ st.file_part_size →
      ((upload_file env st b n contents ct).1.filter isContentUpload).length = 1) ∧
    (∀ st1, (_authorize env st).2 = Except.ok ((), st1) →
      ∃ req, (_authorize env st).1 = [req] ∧
        st1.file_part_size = (env.remote req).json.absoluteMinimumPartSize) := by
  refine ⟨?_, ?_, ?_, ?_⟩
  · intro hle
    have heq : upload_file env st b n contents ct = _upload_simple env st b n contents ct := by
      unfold upload_file
      rw [if_neg (Nat.not_lt.mpr hle)]
    refine ⟨heq, ?_⟩
    intro q hq
    rw [heq] at hq
    rcases mem_upload_simple_endpoint env st b n contents ct q hq with h | h <;>
      (rw [h]; decide)
  · intro hgt
    unfold upload_file
    rw [if_pos hgt]
  · intro tok htok hne hok hle
    have heq : upload_file env st b n contents ct = _upload_simple env st b n contents ct := by
      unfold upload_file
      rw [if_neg (Nat.not_lt.mpr hle)]
    rw [heq]
    cases hm : dictGet? st.upload_urls b with
    | none =>
      rw [upload_simple_ok_miss env st b n contents ct tok htok hne hok hm]
      simp [List.filter_cons]
    | some ut =>
      obtain ⟨u, t⟩ := ut
      rw [upload_simple_ok_hit env st b n contents ct u t hok hm]
      simp [List.filter_cons]
  · intro st1 h
    unfold _authorize at h
    dsimp only at h
    obtain ⟨resp, stm, hc, hf⟩ := Res.bind_eq_ok _ _ _ _ h
    obtain ⟨hresp, htr⟩ := call_noauth_inv env st B2_API_BASE "/b2_authorize_account"
      none [] none resp stm hc
    refine ⟨callReq st B2_API_BASE "/b2_authorize_account" none [] false none, ?_, ?_⟩
    · rw [authorize_trace, htr]
    · split at hf
      · simp only [Except.ok.injEq, Prod.mk.injEq] at hf
        rw [← hf.2, ← hresp]
      · simp at hf

/-- Witness for upload_file_routing at a concrete boundary payload. -/
theorem upload_file_routing_witness :
    ((List.replicate 80 1 : Bytes).length ≤ sampleSt.file_part_size) ∧
    (upload_file sampleEnv sampleSt "b" "f" (List.replicate 80 1) none =
      _upload_simple sampleEnv sampleSt "b" "f" (List.replicate 80 1) none ∧
    (∀ q ∈ (upload_file sampleEnv sampleSt "b" "f" (List.replicate 80 1) none).1,
      q.endpoint ≠ "/b2_start_large_file")) :=
  ⟨by rw [List.length_replicate]; decide,
   (upload_file_routing sampleEnv sampleSt "b" "f" (List.replicate 80 1) none).1
     (by rw [List.length_replicate]; decide)⟩

/-! ### C8: lazy, per-key, never-invalidated upload-target caches -/

@[simp]
theorem startRequest_endpoint (st : St) (b n : String) (ct : Option String) (tok : String) :
    (startRequest st b n ct tok).endpoint = "/b2_start_large_file" := rfl

@[simp]
theorem partUrlRequest_endpoint (st : St) (fid tok : String) :
    (partUrlRequest st fid tok).endpoint = "/b2_get_upload_part_url" := rfl

@[simp]
theorem finishRequest_endpoint (st : St) (fid : String) (hashes : List String) (tok : String) :
    (finishRequest st fid hashes tok).endpoint = "/b2_finish_large_file" := rfl

@[simp]
theorem mkPartReq_endpoint (env : Env) (u t : String) (idx : Nat) (p : Bytes) :
    (mkPartReq env u t idx p).endpoint = "" := rfl

theorem partTrace_filter_partUrl (env : Env) (u t : String) :
    ∀ (ps : List Bytes) (idx : Nat),
      (partTrace env u t idx ps).filter
        (fun q => q.endpoint == "/b2_get_upload_part_url") = [] := by
  intro ps
  induction ps with
  | nil => intro idx; rfl
  | cons p rest ih =>
    intro idx
    simp [partTrace, List.filter_cons, ih (idx + 1)]

/-- C8: both upload-target caches are populated lazily on first use per
key, reused afterwards (in particular the part-upload target is fetched at
most once per large upload and shared by every part), and a populated
entry survives any upload operation unchanged. -/
theorem upload_target_caches (env : Env) (st : St) (b n : String) (contents : Bytes)
    (ct : Option String) (tok : String)
    (htok : st.auth_token = some tok) (hne : tok ≠ "")
    (hok : ∀ q, (env.remote q).status_code < 400) :
    (contents.length ≤ st.file_part_size → dictGet? st.upload_urls b = none →
      ∃ gq pq resp st',
        upload_file env st b n contents ct = ([gq, pq], Except.ok (resp, st')) ∧
        gq.endpoint = "/b2_get_upload_url" ∧ pq.endpoint = "" ∧
        dictGet? st'.upload_urls b =
          some ((env.remote gq).json.uploadUrl, (env.remote gq).json.authorizationToken) ∧
        pq.host = (env.remote gq).json.uploadUrl) ∧
    (contents.length ≤ st.file_part_size →
      ∀ u t, dictGet? st.upload_urls b = some (u, t) →
      ∃ pq resp st',
        upload_file env st b n contents ct = ([pq], Except.ok (resp, st')) ∧
        pq.host = u ∧ dictGet? pq.headers "Authorization" = some t ∧
        dictGet? st'.upload_urls b = some (u, t)) ∧
    (0 < st.file_part_size → st.file_part_size < contents.length →
      ((upload_file env st b n contents ct).1.filter
        (fun q => q.endpoint == "/b2_get_upload_part_url")).length ≤ 1 ∧
      (st.file_upload_urls = [] →
        ((upload_file env st b n contents ct).1.filter
          (fun q => q.endpoint == "/b2_get_upload_part_url")).length = 1) ∧
      (∃ u, ((upload_file env st b n contents ct).1.filter isContentUpload).map
        Request.host = List.replicate (numParts contents.length st.file_part_size) u)) ∧
    (∀ resp st', (upload_file env st b n contents ct).2 = Except.ok (resp, st') →
      (∀ k v, dictGet? st.upload_urls k = some v → dictGet? st'.upload_urls k = some v) ∧
      (∀ k v, dictGet? st.file_upload_urls k = some v →
        dictGet? st'.file_upload_urls k = some v)) := by
  refine ⟨?_, ?_, ?_, ?_⟩
  · intro hle hmiss
    have heq : upload_file env st b n contents ct = _upload_simple env st b n contents ct := by
      unfold upload_file
      rw [if_neg (Nat.not_lt.mpr hle)]
    rw [heq, upload_simple_ok_miss env st b n contents ct tok htok hne hok hmiss]
    refine ⟨uploadUrlRequest st b tok,
      simplePostReq env (bucketTargetUrl env st b tok) (bucketTargetTok env st b tok)
        n contents ct, _, _, rfl, rfl, rfl, ?_, ?_⟩
    · simp [bucketTargetUrl, bucketTargetTok]
    · simp [simplePostReq, bucketTargetUrl]
  · intro hle u t hhit
    have heq : upload_file env st b n contents ct = _upload_simple env st b n contents ct := by
      unfold upload_file
      rw [if_neg (Nat.not_lt.mpr hle)]
    rw [heq, upload_simple_ok_hit env st b n contents ct u t hok hhit]
    refine ⟨simplePostReq env u t n contents ct, _, _, rfl, rfl, ?_, hhit⟩
    simp [simplePostReq, dictGet?]
  · intro hs hgt
    have hnp : 2 ≤ numParts contents.length st.file_part_size := by
      have h1 := (Nat.one_le_div_iff hs).mpr (Nat.le_of_lt hgt)
      unfold numParts
      omega
    have heq : upload_file env st b n contents ct =
        _upload_large_file env st b n contents ct := by
      unfold upload_file
      rw [if_pos hgt]
    rw [heq]
    cases hcache : dictGet? st.file_upload_urls (startFid env st b n ct tok) with
    | none =>
      rw [upload_large_ok_miss env st b n contents ct tok htok hne hok hnp hcache]
      have hfe : ((startRequest st b n ct tok ::
          (partUrlRequest (authBump st tok) (startFid env st b n ct tok) tok ::
            partTrace env
              (partTargetUrl env (authBump st tok) (startFid env st b n ct tok) tok)
              (partTargetTok env (authBump st tok) (startFid env st b n ct tok) tok)
              1 (splitParts contents st.file_part_size) ++
           [finishRequest (partFetchedSt env (authBump st tok) (startFid env st b n ct tok) tok)
             (startFid env st b n ct tok)
             (partHashes env
               (partTargetUrl env (authBump st tok) (startFid env st b n ct tok) tok)
               (partTargetTok env (authBump st tok) (startFid env st b n ct tok) tok)
               1 (splitParts contents st.file_part_size)) tok])).filter
          (fun q => q.endpoint == "/b2_get_upload_part_url")) =
          [partUrlRequest (authBump st tok) (startFid env st b n ct tok) tok] := by
        simp [List.filter_cons, List.filter_append, partTrace_filter_partUrl]
      refine ⟨?_, fun _ => ?_, ?_⟩
      · rw [hfe]
        simp
      · rw [hfe]
        rfl
      · refine ⟨partTargetUrl env (authBump st tok) (startFid env st b n ct tok) tok, ?_⟩
        have hfil : ((startRequest st b n ct tok ::
            (partUrlRequest (authBump st tok) (startFid env st b n ct tok) tok ::
              partTrace env
                (partTargetUrl env (authBump st tok) (startFid env st b n ct tok) tok)
                (partTargetTok env (authBump st tok) (startFid env st b n ct tok) tok)
                1 (splitParts contents st.file_part_size) ++
             [finishRequest (partFetchedSt env (authBump st tok) (startFid env st b n ct tok) tok)
               (startFid env st b n ct tok)
               (partHashes env
                 (partTargetUrl env (authBump st tok) (startFid env st b n ct tok) tok)
                 (partTargetTok env (authBump st tok) (startFid env st b n ct tok) tok)
                 1 (splitParts contents st.file_part_size)) tok])).filter isContentUpload) =
            partTrace env
              (partTargetUrl env (authBump st tok) (startFid env st b n ct tok) tok)
              (partTargetTok env (authBump st tok) (startFid env st b n ct tok) tok)
              1 (splitParts contents st.file_part_size) := by
          simp [List.filter_cons, List.filter_append, partTrace_filter]
        rw [hfil, partTrace_map_host, splitParts_length]
    | some ut =>
      obtain ⟨u, t⟩ := ut
      rw [upload_large_ok_hit env st b n contents ct tok u t htok hne hok hnp hcache]
      have hfe : ((startRequest st b n ct tok ::
          (partTrace env u t 1 (splitParts contents st.file_part_size) ++
           [finishRequest (authBump st tok) (startFid env st b n ct tok)
             (partHashes env u t 1 (splitParts contents st.file_part_size)) tok])).filter
          (fun q => q.endpoint == "/b2_get_upload_part_url")) = [] := by
        simp [List.filter_cons, List.filter_append, partTrace_filter_partUrl]
      refine ⟨?_, ?_, ?_⟩
      · rw [hfe]
        simp
      · intro h0
        rw [h0] at hcache
        simp [dictGet?] at hcache
      · refine ⟨u, ?_⟩
        have hfil : ((startRequest st b n ct tok ::
            (partTrace env u t 1 (splitParts contents st.file_part_size) ++
             [finishRequest (authBump st tok) (startFid env st b n ct tok)
               (partHashes env u t 1 (splitParts contents st.file_part_size)) tok])).filter
            isContentUpload) =
            partTrace env u t 1 (splitParts contents st.file_part_size) := by
          simp [List.filter_cons, List.filter_append, partTrace_filter]
        rw [hfil, partTrace_map_host, splitParts_length]
  · intro resp st' hok2
    by_cases hgt : st.file_part_size < contents.length
    · have heq : upload_file env st b n contents ct =
          _upload_large_file env st b n contents ct := by
        unfold upload_file
        rw [if_pos hgt]
      rw [heq] at hok2
      by_cases hs : 0 < st.file_part_size
      · have hnp : 2 ≤ numParts contents.length st.file_part_size := by
          have h1 := (Nat.one_le_div_iff hs).mpr (Nat.le_of_lt hgt)
          unfold numParts
          omega
        cases hcache : dictGet? st.file_upload_urls (startFid env st b n ct tok) with
        | none =>
          rw [upload_large_ok_miss env st b n contents ct tok htok hne hok hnp hcache] at hok2
          simp only [Except.ok.injEq, Prod.mk.injEq] at hok2
          rw [← hok2.2]
          refine ⟨?_, ?_⟩
          · intro k v hk
            simpa using hk
          · intro k v hk
            have hkne : k ≠ startFid env st b n ct tok := by
              intro hcontra
              rw [hcontra, hcache] at hk
              cases hk
            simp only [authBump_file_upload_urls, partFetchedSt_file_upload_urls]
            rw [dictGet?_insert_ne _ _ _ _ hkne]
            simpa using hk
        | some ut =>
          obtain ⟨u, t⟩ := ut
          rw [upload_large_ok_hit env st b n contents ct tok u t htok hne hok hnp hcache] at hok2
          simp only [Except.ok.injEq, Prod.mk.injEq] at hok2
          rw [← hok2.2]
          exact ⟨fun k v hk => by simpa using hk, fun k v hk => by simpa using hk⟩
      · have hs0 : st.file_part_size = 0 := by omega
        unfold _upload_large_file at hok2
        rw [start_ok env st b n ct tok htok hne hok] at hok2
        simp only [Res.bind_ok, authBump_file_part_size] at hok2
        rw [if_pos (by simp [numParts, hs0])] at hok2
        simp at hok2
    · have heq : upload_file env st b n contents ct =
          _upload_simple env st b n contents ct := by
        unfold upload_file
        rw [if_neg hgt]
      rw [heq] at hok2
      cases hm : dictGet? st.upload_urls b with
      | none =>
        rw [upload_simple_ok_miss env st b n contents ct tok htok hne hok hm] at hok2
        simp only [Except.ok.injEq, Prod.mk.injEq] at hok2
        rw [← hok2.2]
        refine ⟨?_, ?_⟩
        · intro k v hk
          have hkne : k ≠ b := by
            intro hcontra
            rw [hcontra, hm] at hk
            cases hk
          simp only [bucketFetchedSt_upload_urls]
          rw [dictGet?_insert_ne _ _ _ _ hkne]
          exact hk
        · intro k v hk
          simpa using hk
      | some ut =>
        obtain ⟨u, t⟩ := ut
        rw [upload_simple_ok_hit env st b n contents ct u t hok hm] at hok2
        simp only [Except.ok.injEq, Prod.mk.injEq] at hok2
        rw [← hok2.2]
        exact ⟨fun k v hk => hk, fun k v hk => hk⟩

/-- Witness for upload_target_caches on the sample state (empty caches). -/
theorem upload_target_caches_witness :
    (sampleSt.auth_token = some "TOKEN" ∧ "TOKEN" ≠ "" ∧
      (∀ q, (sampleEnv.remote q).status_code < 400) ∧
      (List.replicate 80 1 : Bytes).length ≤ sampleSt.file_part_size ∧
      dictGet? sampleSt.upload_urls "b" = none) ∧
    (∃ gq pq resp st',
      upload_file sampleEnv sampleSt "b" "f" (List.replicate 80 1) none =
        ([gq, pq], Except.ok (resp, st')) ∧
      gq.endpoint = "/b2_get_upload_url" ∧ pq.endpoint = "" ∧
      dictGet? st'.upload_urls "b" =
        some ((sampleEnv.remote gq).json.uploadUrl,
          (sampleEnv.remote gq).json.authorizationToken) ∧
      pq.host = (sampleEnv.remote gq).json.uploadUrl) :=
  ⟨⟨rfl, by decide, fun q => by simp [sampleEnv], by rw [List.length_replicate]; decide, rfl⟩,
   (upload_target_caches sampleEnv sampleSt "b" "f" (List.replicate 80 1) none "TOKEN"
     rfl (by decide) (fun q => by simp [sampleEnv])).1
     (by rw [List.length_replicate]; decide) rfl⟩

/-! ### C9: the shared default headers dict leaks state between calls -/

/-- C9: calls that omit the headers argument share one default dict.  An
authenticated call that omits it writes the Authorization entry into that
shared dict, and a later call that also omits it — even an unauthenticated
one, which adds no Authorization itself — sends the leaked entry instead
of starting from a fresh empty mapping. -/
theorem default_headers_leak (env : Env) (st : St) (host ep : String)
    (body : Dict String) (data : Option ReqData) (host2 ep2 : String)
    (body2 : Dict String) (data2 : Option ReqData) (tok : String)
    (htok : st.auth_token = some tok) (hne : tok ≠ "")
    (hok : ∀ q, (env.remote q).status_code < 400) :
    ∃ resp st1, (_call env st host ep none body true data).2 = Except.ok (resp, st1) ∧
      dictGet? st1.defaultHeaders "Authorization" = some tok ∧
      (∀ q ∈ (_call env st1 host2 ep2 none body2 false data2).1,
        dictGet? q.headers "Authorization" = some tok) := by
  rw [call_auth_ok env st host ep body data tok htok hne (hok _)]
  refine ⟨_, authBump st tok, rfl, ?_, ?_⟩
  · simp
  · intro q hq
    rw [call_trace] at hq
    simp at hq
    subst hq
    simp

/-- Witness for default_headers_leak: after one authenticated call on the
sample state, the unauthenticated authorize-style call leaks the token. -/
theorem default_headers_leak_witness :
    (sampleSt.auth_token = some "TOKEN" ∧ "TOKEN" ≠ "" ∧
      (∀ q, (sampleEnv.remote q).status_code < 400)) ∧
    (∃ resp st1,
      (_call sampleEnv sampleSt "h" "/e" none [] true none).2 = Except.ok (resp, st1) ∧
      dictGet? st1.defaultHeaders "Authorization" = some "TOKEN" ∧
      (∀ q ∈ (_call sampleEnv st1 "h2" "/e2" none [] false none).1,
        dictGet? q.headers "Authorization" = some "TOKEN")) :=
  ⟨⟨rfl, by decide, fun q => by simp [sampleEnv]⟩,
   default_headers_leak sampleEnv sampleSt "h" "/e" [] none "h2" "/e2" [] none "TOKEN"
     rfl (by decide) (fun q => by simp [sampleEnv])⟩

/-- C10: calling list_files with limit 0 or an empty start cursor is
indistinguishable from omitting the argument, and the corresponding field
never appears in the request body. -/
theorem list_files_falsy_omitted (env : Env) (st : St) (b : String)
    (sfi : Option String) (lim : Option Nat) :
    list_files env st b (some "") lim = list_files env st b none lim ∧
    list_files env st b sfi (some 0) = list_files env st b sfi none ∧
    (∀ q ∈ (list_files env st b (some "") (some 0)).1,
      dictGet? q.params "startFileId" = none ∧ dictGet? q.params "maxFileCount" = none) := by
  refine ⟨rfl, rfl, ?_⟩
  intro q hq
  unfold list_files at hq
  rcases Res.mem_bind _ _ q hq with h1 | ⟨a, st1, _, h2⟩
  · have := mem_call_params _ _ _ _ _ _ _ _ q h1
    rw [this]
    refine ⟨?_, ?_⟩ <;> simp [dictGet?]
  · simp at h2

end B2py
